import Mathlib

set_option maxHeartbeats 1000000

namespace Clewdr

/-! # Shallow embedding of the MCP integration core of clewdr

Data model and operations are translated from `src/types/mcp.rs`,
`src/mcp/client.rs`, `src/mcp/registry.rs`, `src/mcp/router.rs` and
`src/mcp/state.rs`.  Effects of the asynchronous runtime (child-process
spawning, pipe writes, response arrival) are made explicit: a `World`
records spawned and live child processes, and each operation that in the
source awaits an external event takes that event's outcome as an
explicit argument. -/

/-- Model of `serde_json::Value`.  Numbers are restricted to the integral
values the MCP core produces and consumes (`i64` ids and error codes). -/
inductive Json where
  | null : Json
  | bool (b : Bool) : Json
  | num (n : Int) : Json
  | str (s : String) : Json
  | arr (elems : List Json) : Json
  | obj (fields : List (String × Json)) : Json
deriving Repr

/-- Source: `src/types/mcp.rs`: `RequestId` — tagged union of integer and string.
`#[serde(untagged)]`. -/
inductive RequestId where
  | Number (n : Int)
  | String (s : String)
deriving Repr, DecidableEq

/-- Source: `src/types/mcp.rs`: `McpError`. -/
structure McpError where
  code : Int
  message : String
  data : Option Json
deriving Repr

/-- Source: `src/types/mcp.rs`: `McpRequest`. -/
structure McpRequest where
  jsonrpc : String
  id : RequestId
  method : String
  params : Option Json
deriving Repr

/-- Source: `src/types/mcp.rs`: `McpResponse`. -/
structure McpResponse where
  jsonrpc : String
  id : RequestId
  result : Option Json
  error : Option McpError
deriving Repr

/-- Source: `src/types/mcp.rs`: `McpTool`. -/
structure McpTool where
  name : String
  description : Option String
  input_schema : Json
deriving Repr

/-- Source: `src/types/mcp.rs`: `EmbeddedResource`. -/
structure EmbeddedResource where
  uri : String
  mime_type : Option String
  text : Option String
  blob : Option String
deriving Repr

/-- Source: `src/types/mcp.rs`: `ToolContent` — tagged by `"type"`. -/
inductive ToolContent where
  | Text (text : String)
  | Image (data : String) (mime_type : String)
  | Resource (resource : EmbeddedResource)
deriving Repr

/-- Source: `src/types/mcp.rs`: `CallToolResult`. -/
structure CallToolResult where
  content : List ToolContent
  is_error : Option Bool
deriving Repr

/-- Source: `src/types/mcp.rs`: `ServerInfo`. -/
structure ServerInfo where
  name : String
  version : String
deriving Repr

/-- Source: `src/types/mcp.rs`: `InitializeResult`.  The `capabilities` payload is
kept as its raw JSON sub-tree; the core never inspects it. -/
structure InitializeResult where
  protocol_version : String
  capabilities : Json
  server_info : ServerInfo
  instructions : Option String
deriving Repr

/-- Source: `src/types/mcp.rs`: `McpServerConfig`. -/
structure McpServerConfig where
  name : String
  command : Option String
  args : List String
  env : List (String × String)
  url : Option String
  enabled : Bool
  timeout_ms : Nat
deriving Repr

/-- Source: `src/types/mcp.rs`: `RegisteredTool`. -/
structure RegisteredTool where
  server_name : String
  tool : McpTool
  qualified_name : String
deriving Repr

/-- Source: `src/types/mcp.rs`: `RegisteredTool::new`. -/
def RegisteredTool.new (server_name : String) (tool : McpTool) : RegisteredTool :=
  { server_name := server_name
    tool := tool
    qualified_name := server_name ++ "::" ++ tool.name }

/-! ## Serde model for `McpRequest` / `McpResponse`

`serde_json::to_value` / `from_value` semantics for the derived
`Serialize`/`Deserialize` implementations: optional fields are omitted
when `None` (`skip_serializing_if`), an `Option<T>` field reads a missing
field or an explicit `null` as `None`, and `RequestId` is `untagged`
(a JSON number parses as `Number`, a JSON string as `String`). -/

/-- Field lookup in a serialized JSON object (first occurrence wins,
as in `serde_json`). -/
def lookupField (fields : List (String × Json)) (key : String) : Option Json :=
  (fields.find? (fun p => p.1 == key)).map (fun p => p.2)

/-- Deserialization of an `Option<Value>` field: a missing field and an
explicit `null` both give `None`. -/
def getOptValue (fields : List (String × Json)) (key : String) : Option Json :=
  match lookupField fields key with
  | none => none
  | some Json.null => none
  | some v => some v

def getString (fields : List (String × Json)) (key : String) : Option String :=
  match lookupField fields key with
  | some (Json.str s) => some s
  | _ => none

def getInt (fields : List (String × Json)) (key : String) : Option Int :=
  match lookupField fields key with
  | some (Json.num n) => some n
  | _ => none

def RequestId.toJson : RequestId → Json
  | RequestId.Number n => Json.num n
  | RequestId.String s => Json.str s

/-- Untagged deserialization: the `Number` variant is tried first, then
`String`; any other JSON shape fails. -/
def RequestId.fromJson : Json → Option RequestId
  | Json.num n => some (RequestId.Number n)
  | Json.str s => some (RequestId.String s)
  | _ => none

def McpError.toJson (e : McpError) : Json :=
  Json.obj ([("code", Json.num e.code), ("message", Json.str e.message)] ++
    (match e.data with
     | none => []
     | some v => [("data", v)]))

def McpError.fromJson (j : Json) : Option McpError :=
  match j with
  | Json.obj fields =>
    match getInt fields "code", getString fields "message" with
    | some code, some message => some ⟨code, message, getOptValue fields "data"⟩
    | _, _ => none
  | _ => none

def McpRequest.toJson (r : McpRequest) : Json :=
  Json.obj ([("jsonrpc", Json.str r.jsonrpc), ("id", r.id.toJson),
      ("method", Json.str r.method)] ++
    (match r.params with
     | none => []
     | some v => [("params", v)]))

def McpRequest.fromJson (j : Json) : Option McpRequest :=
  match j with
  | Json.obj fields =>
    match getString fields "jsonrpc",
          (lookupField fields "id").bind RequestId.fromJson,
          getString fields "method" with
    | some jsonrpc, some id, some method =>
      some ⟨jsonrpc, id, method, getOptValue fields "params"⟩
    | _, _, _ => none
  | _ => none

def McpResponse.toJson (r : McpResponse) : Json :=
  Json.obj ([("jsonrpc", Json.str r.jsonrpc), ("id", r.id.toJson)] ++
    (match r.result with
     | none => []
     | some v => [("result", v)]) ++
    (match r.error with
     | none => []
     | some e => [("error", e.toJson)]))

/-- Deserialization of the `error : Option<McpError>` field: missing or
`null` is `None`; any other value must parse as an `McpError`. -/
def getOptError (fields : List (String × Json)) : Option (Option McpError)
  :=
  match lookupField fields "error" with
  | none => some none
  | some Json.null => some none
  | some v => (McpError.fromJson v).map some

def McpResponse.fromJson (j : Json) : Option McpResponse :=
  match j with
  | Json.obj fields =>
    match getString fields "jsonrpc",
          (lookupField fields "id").bind RequestId.fromJson,
          getOptError fields with
    | some jsonrpc, some id, some error =>
      some ⟨jsonrpc, id, getOptValue fields "result", error⟩
    | _, _, _ => none
  | _ => none

/-- Source: `McpRequest::new` (`src/types/mcp.rs`). -/
def McpRequest.new (id : RequestId) (method : String) (params : Option Json) :
    McpRequest :=
  { jsonrpc := "2.0", id := id, method := method, params := params }

/-! ## Client model (`src/mcp/client.rs`)

A `World` records the child processes spawned so far and which of them are
still alive.  Each awaited external event (a pipe write, the arrival of a
response) is an explicit argument of the operation that awaits it. -/

/-- Source: `src/mcp/client.rs`: `McpClientError`. -/
inductive McpClientError where
  | SpawnError
  | JsonError
  | ServerError (e : McpError)
  | Timeout
  | ConnectionClosed
  | Cancelled
  | NotInitialized
  | InvalidResponse (msg : String)
deriving Repr

/-- Process environment: pids ever spawned, pids currently alive, next pid. -/
structure World where
  spawned : List Nat
  alive : List Nat
  nextPid : Nat
deriving Repr, DecidableEq

def World.start : World := ⟨[], [], 0⟩

def World.kill (w : World) (pid : Nat) : World :=
  { w with alive := w.alive.filter (fun q => q != pid) }

/-- Source: `src/mcp/client.rs`: `McpClient` state.  `stdin` is `some lines` when
the pipe is open, recording the JSON documents written so far;
`pending_requests` records the ids with a live completion slot. -/
structure McpClient where
  config : McpServerConfig
  child : Option Nat
  stdin : Option (List Json)
  pending_requests : List RequestId
  next_id : Int
  capabilities : Option Json
  initialized : Bool
deriving Repr

/-- Source: `McpClient::new`. -/
def McpClient.new (config : McpServerConfig) : McpClient :=
  { config := config
    child := none
    stdin := none
    pending_requests := []
    next_id := 1
    capabilities := none
    initialized := false }

/-- Source: `McpClient::is_ready`. -/
def McpClient.is_ready (c : McpClient) : Bool :=
  c.initialized && c.child.isSome

/-- Outcome of an awaited write-plus-flush on the child's stdin. -/
inductive WriteOutcome where
  | ok
  | ioErr
deriving Repr, DecidableEq

/-- Outcome of awaiting a pending-request completion slot under the
`timeout_ms` deadline (`tokio::time::timeout(_, rx)` in `request`):
the reader delivered a result, the sender was dropped, or the deadline
elapsed first. -/
inductive AwaitOutcome where
  | response (r : Except McpError Json)
  | dropped
  | timedOut

/-- Source: `HashMap::insert` on the pending table, at the level of the key set. -/
def insertPending (l : List RequestId) (id : RequestId) : List RequestId :=
  if id ∈ l then l else id :: l

/-- Source: `HashMap::remove` on the pending table, at the level of the key set. -/
def removePending (l : List RequestId) (id : RequestId) : List RequestId :=
  l.filter (fun k => k != id)

/-- Source: `McpClient::request` (`src/mcp/client.rs` lines 207-249), at the
`Value`-typed instance (the typed wrappers decode afterwards).  Mirrors the
source order: the `initialized` gate, minting the id, registering the
completion slot, the stdin write, then the awaited slot with timeout.  The
slot is removed on response delivery, on sender drop, and on timeout; it
survives (leaks) when the write path errors out early. -/
def McpClient.request (c : McpClient) (method : String) (params : Option Json)
    (wr : WriteOutcome) (aw : AwaitOutcome) :
    Except McpClientError Json × McpClient :=
  if c.initialized = false ∧ method ≠ "initialize" then
    (Except.error McpClientError.NotInitialized, c)
  else
    let id := RequestId.Number c.next_id
    let req := McpRequest.new id method params
    let c1 := { c with next_id := c.next_id + 1
                       pending_requests := insertPending c.pending_requests id }
    match c1.stdin with
    | none => (Except.error McpClientError.ConnectionClosed, c1)
    | some lines =>
      match wr with
      | WriteOutcome.ioErr => (Except.error McpClientError.SpawnError, c1)
      | WriteOutcome.ok =>
        let c2 := { c1 with stdin := some (lines ++ [req.toJson]) }
        let c3 := { c2 with pending_requests := removePending c2.pending_requests id }
        match aw with
        | AwaitOutcome.response (Except.ok v) => (Except.ok v, c3)
        | AwaitOutcome.response (Except.error e) =>
            (Except.error (McpClientError.ServerError e), c3)
        | AwaitOutcome.dropped => (Except.error McpClientError.Cancelled, c3)
        | AwaitOutcome.timedOut => (Except.error McpClientError.Timeout, c3)

/-- The JSON document `notify` writes: `json!` serializes the `Option`
params as an explicit `null` when absent. -/
def notificationJson (method : String) (params : Option Json) : Json :=
  Json.obj [("jsonrpc", Json.str "2.0"), ("method", Json.str method),
    ("params", params.getD Json.null)]

/-- Source: `McpClient::notify` (`src/mcp/client.rs` lines 252-267): no gate on the
`initialized` flag, no pending slot; fails with `ConnectionClosed` exactly
when the stdin handle is absent. -/
def McpClient.notify (c : McpClient) (method : String) (params : Option Json)
    (wr : WriteOutcome) : Except McpClientError Unit × McpClient :=
  match c.stdin with
  | none => (Except.error McpClientError.ConnectionClosed, c)
  | some lines =>
    match wr with
    | WriteOutcome.ioErr => (Except.error McpClientError.SpawnError, c)
    | WriteOutcome.ok =>
        (Except.ok (), { c with stdin := some (lines ++ [notificationJson method params]) })

/-- Source: `McpClient::list_tools`: `request("tools/list", None)` with the
`ListToolsResult` decode (`serde_json::from_value`) passed explicitly. -/
def McpClient.list_tools (c : McpClient) (wr : WriteOutcome) (aw : AwaitOutcome)
    (decode : Json → Option (List McpTool)) :
    Except McpClientError (List McpTool) × McpClient :=
  match c.request "tools/list" none wr aw with
  | (Except.ok v, c1) =>
    match decode v with
    | some tools => (Except.ok tools, c1)
    | none => (Except.error McpClientError.JsonError, c1)
  | (Except.error e, c1) => (Except.error e, c1)

/-- Serialization of `CallToolParams` (`arguments` omitted when absent). -/
def callToolParamsJson (name : String) (arguments : Option Json) : Json :=
  Json.obj ([("name", Json.str name)] ++
    (match arguments with
     | none => []
     | some v => [("arguments", v)]))

/-- Source: `McpClient::call_tool`: `request("tools/call", params)` with the
`CallToolResult` decode passed explicitly. -/
def McpClient.call_tool (c : McpClient) (name : String) (arguments : Option Json)
    (wr : WriteOutcome) (aw : AwaitOutcome) (decode : Json → Option CallToolResult) :
    Except McpClientError CallToolResult × McpClient :=
  match c.request "tools/call" (some (callToolParamsJson name arguments)) wr aw with
  | (Except.ok v, c1) =>
    match decode v with
    | some result => (Except.ok result, c1)
    | none => (Except.error McpClientError.JsonError, c1)
  | (Except.error e, c1) => (Except.error e, c1)

/-- Compile-time `env!("CARGO_PKG_VERSION")`; the exact value is never
inspected by the core. -/
def clewdrVersion : String := "0.0.0"

/-- Source: `InitializeParams::default()` serialized: protocol-version literal,
empty client capabilities, client identity. -/
def initParamsJson : Json :=
  Json.obj [("protocolVersion", Json.str "2024-11-05"),
    ("capabilities", Json.obj []),
    ("clientInfo", Json.obj [("name", Json.str "clewdr"),
      ("version", Json.str clewdrVersion)])]

/-- Source: `McpClient::initialize` (`src/mcp/client.rs` lines 183-204): drive the
handshake request, cache the returned capabilities, write the
`notifications/initialized` notification, then set the `initialized`
flag.  Failure at any step returns with the flag still false. -/
def McpClient.initHandshake (c : McpClient) (wr : WriteOutcome) (aw : AwaitOutcome)
    (decode : Json → Option InitializeResult) (nwr : WriteOutcome) :
    Except McpClientError Unit × McpClient :=
  match c.request "initialize" (some initParamsJson) wr aw with
  | (Except.error e, c1) => (Except.error e, c1)
  | (Except.ok v, c1) =>
    match decode v with
    | none => (Except.error McpClientError.JsonError, c1)
    | some result =>
      let c2 := { c1 with capabilities := some result.capabilities }
      match c2.notify "notifications/initialized" none nwr with
      | (Except.error e, c3) => (Except.error e, c3)
      | (Except.ok _, c3) => (Except.ok (), { c3 with initialized := true })

/-- Environment of one `connect` call: spawn outcome, pipe acquisition,
and the handshake's write/await/decode/notify-write outcomes. -/
structure ConnectEnv where
  spawnOk : Bool
  pipesOk : Bool
  wr : WriteOutcome
  aw : AwaitOutcome
  decodeInit : Json → Option InitializeResult
  nwr : WriteOutcome

/-- Source: `McpClient::connect` (`src/mcp/client.rs` lines 88-180): idempotent if a
child is already held; reject a missing command; spawn; take the pipes
(on failure the error returns before the child handle is stored, so the
child is abandoned alive); then drive the handshake.  A handshake failure
propagates with the child still held and alive. -/
def McpClient.connect (c : McpClient) (w : World) (env : ConnectEnv) :
    Except McpClientError Unit × McpClient × World :=
  if c.child.isSome then (Except.ok (), c, w)
  else
    match c.config.command with
    | none =>
      (Except.error (McpClientError.InvalidResponse
        "No command specified for stdio transport"), c, w)
    | some _ =>
      if env.spawnOk = false then (Except.error McpClientError.SpawnError, c, w)
      else
        let pid := w.nextPid
        let w1 : World :=
          { spawned := pid :: w.spawned, alive := pid :: w.alive, nextPid := w.nextPid + 1 }
        if env.pipesOk = false then
          (Except.error (McpClientError.InvalidResponse "Failed to get stdin"), c, w1)
        else
          let c1 := { c with child := some pid, stdin := some ([] : List Json) }
          match c1.initHandshake env.wr env.aw env.decodeInit env.nwr with
          | (Except.error e, c2) => (Except.error e, c2, w1)
          | (Except.ok _, c2) => (Except.ok (), c2, w1)

/-- Source: `McpClient::disconnect` (`src/mcp/client.rs` lines 291-302): take and
kill the child, drop the stdin handle, clear the flag and capabilities. -/
def McpClient.disconnect (c : McpClient) (w : World) : McpClient × World :=
  let w1 :=
    match c.child with
    | some pid => w.kill pid
    | none => w
  ({ c with child := none, stdin := none, initialized := false, capabilities := none }, w1)

/-- Source: `impl Drop for McpClient`: best-effort kill of a still-held child. -/
def McpClient.dropKill (c : McpClient) (w : World) : World :=
  match c.child with
  | some pid => w.kill pid
  | none => w

/-! ## Association-map model of the registry's hash maps

`HashMap<String, V>` is modelled as an association list with unique keys;
`insertA` overwrites the value of an existing key and otherwise appends. -/

def lookupA {V : Type} (l : List (String × V)) (k : String) : Option V :=
  (l.find? (fun p => p.1 == k)).map (fun p => p.2)

def containsKeyA {V : Type} (l : List (String × V)) (k : String) : Bool :=
  l.any (fun p => p.1 == k)

def insertA {V : Type} (l : List (String × V)) (k : String) (v : V) :
    List (String × V) :=
  if containsKeyA l k then l.map (fun p => if p.1 == k then (k, v) else p)
  else l ++ [(k, v)]

def eraseA {V : Type} (l : List (String × V)) (k : String) : List (String × V) :=
  l.filter (fun p => p.1 != k)

def keysA {V : Type} (l : List (String × V)) : List String := l.map (fun p => p.1)

/-- Rust `str::starts_with` (character-sequence prefix test). -/
def strStartsWith (s p : String) : Bool := p.data.isPrefixOf s.data

/-! ## Registry model (`src/mcp/registry.rs`) -/

/-- Source: `ToolRegistry`: clients by server name, tools by qualified name,
aliases from short name to qualified name. -/
structure ToolRegistry where
  clients : List (String × McpClient)
  tools : List (String × RegisteredTool)
  tool_aliases : List (String × String)

/-- Source: `ToolRegistry::new`. -/
def ToolRegistry.new : ToolRegistry := ⟨[], [], []⟩

/-- Body of the tool-registration loop in `add_server` (lines 60-81): the
short-name alias is inserted only when not already claimed (first writer
wins), the tool always under its qualified name. -/
def registerStep (server_name : String)
    (acc : List (String × RegisteredTool) × List (String × String))
    (tool : McpTool) :
    List (String × RegisteredTool) × List (String × String) :=
  let registered := RegisteredTool.new server_name tool
  let aliases :=
    if containsKeyA acc.2 registered.tool.name then acc.2
    else insertA acc.2 registered.tool.name registered.qualified_name
  (insertA acc.1 registered.qualified_name registered, aliases)

def registerTools (server_name : String) (ts : List McpTool)
    (tools : List (String × RegisteredTool)) (aliases : List (String × String)) :
    List (String × RegisteredTool) × List (String × String) :=
  ts.foldl (registerStep server_name) (tools, aliases)

/-- Environment of one `add_server` call: the `connect` environment plus the
write/await/decode outcomes of its `list_tools` request. -/
structure AddEnv where
  conn : ConnectEnv
  lwr : WriteOutcome
  law : AwaitOutcome
  ldecode : Json → Option (List McpTool)

/-- Source: `ToolRegistry::add_server` (`src/mcp/registry.rs` lines 37-93).
A disabled config records nothing.  A `connect` failure propagates with the
fresh client dropped (its drop kills a held child) and the registry
untouched.  A `list_tools` failure is demoted to a warning: the client is
stored with zero tools.  Storing a client under an already-present name
drops the displaced client. -/
def ToolRegistry.add_server (reg : ToolRegistry) (config : McpServerConfig)
    (env : AddEnv) (w : World) :
    Except McpClientError Unit × ToolRegistry × World :=
  if config.enabled = false then (Except.ok (), reg, w)
  else
    let server_name := config.name
    let client := McpClient.new config
    match client.connect w env.conn with
    | (Except.error e, client1, w1) => (Except.error e, reg, client1.dropKill w1)
    | (Except.ok _, client1, w1) =>
      let (lr, client2) := client1.list_tools env.lwr env.law env.ldecode
      let (tools, aliases) :=
        match lr with
        | Except.ok ts => registerTools server_name ts reg.tools reg.tool_aliases
        | Except.error _ => (reg.tools, reg.tool_aliases)
      let w2 :=
        match lookupA reg.clients server_name with
        | some displaced => displaced.dropKill w1
        | none => w1
      (Except.ok (),
        { clients := insertA reg.clients server_name client2
          tools := tools
          tool_aliases := aliases }, w2)

/-- Source: `ToolRegistry::remove_server` (`src/mcp/registry.rs` lines 96-110):
take the client out and disconnect it; purge `tools` of entries whose
`server_name` matches and `tool_aliases` of entries whose value starts
with `"{name}::"`. -/
def ToolRegistry.remove_server (reg : ToolRegistry) (name : String) (w : World) :
    ToolRegistry × World :=
  let cw :=
    match lookupA reg.clients name with
    | some client => (eraseA reg.clients name, (client.disconnect w).2)
    | none => (reg.clients, w)
  let tools := reg.tools.filter (fun p => p.2.server_name != name)
  let aliases := reg.tool_aliases.filter (fun p => !(strStartsWith p.2 (name ++ "::")))
  ({ clients := cw.1, tools := tools, tool_aliases := aliases }, cw.2)

/-- Source: `ToolRegistry::lookup_tool` (lines 158-173): qualified name first, then
through the alias table. -/
def ToolRegistry.lookup_tool (reg : ToolRegistry) (name : String) :
    Option RegisteredTool :=
  match lookupA reg.tools name with
  | some tool => some tool
  | none =>
    match lookupA reg.tool_aliases name with
    | some qualified => lookupA reg.tools qualified
    | none => none

def jsonOfOptString : Option String → Json
  | none => Json.null
  | some s => Json.str s

/-- The per-entry conversion `ToolRegistry::call_tool` applies to the
returned content (lines 199-220); `json!` writes `null` for an absent
`Option` field. -/
def ToolContent.toValue : ToolContent → Json
  | ToolContent.Text text => Json.str text
  | ToolContent.Image data mime_type =>
      Json.obj [("type", Json.str "image"), ("data", Json.str data),
        ("mime_type", Json.str mime_type)]
  | ToolContent.Resource resource =>
      Json.obj [("type", Json.str "resource"), ("uri", Json.str resource.uri),
        ("mime_type", jsonOfOptString resource.mime_type),
        ("text", jsonOfOptString resource.text)]

/-- Source: `ToolRegistry::call_tool` (`src/mcp/registry.rs` lines 176-228).
`callOutcome` is the result of the awaited `client.call_tool` round-trip on
the owning client.  The content array is mapped entry-wise; a one-element
array is returned as its single element (`content.len() == 1` followed by
`next().unwrap()`), anything else as the whole array.  `is_error` is never
read. -/
def ToolRegistry.call_tool (reg : ToolRegistry) (name : String)
    (arguments : Option Json)
    (callOutcome : Except McpClientError CallToolResult) :
    Except McpClientError Json :=
  match reg.lookup_tool name with
  | none =>
      Except.error (McpClientError.InvalidResponse
        ("Tool '" ++ name ++ "' not found"))
  | some tool_info =>
    match lookupA reg.clients tool_info.server_name with
    | none =>
        Except.error (McpClientError.InvalidResponse
          ("Server '" ++ tool_info.server_name ++ "' not connected"))
    | some _ =>
      match callOutcome with
      | Except.error e => Except.error e
      | Except.ok result =>
        let content := result.content.map ToolContent.toValue
        match content with
        | [single] => Except.ok single
        | _ => Except.ok (Json.arr content)

/-- Source: `ToolRegistry::shutdown` (lines 298-309): drain and disconnect every
client, then clear `tools` and `tool_aliases`. -/
def ToolRegistry.shutdown (reg : ToolRegistry) (w : World) : ToolRegistry × World :=
  let w1 := reg.clients.foldl (fun w p => (p.2.disconnect w).2) w
  (⟨[], [], []⟩, w1)

/-- One completed registry operation together with its environment. -/
inductive RegOp where
  | add (config : McpServerConfig) (env : AddEnv)
  | remove (name : String)

def applyOp (st : ToolRegistry × World) : RegOp → ToolRegistry × World
  | RegOp.add config env =>
      let r := st.1.add_server config env st.2
      (r.2.1, r.2.2)
  | RegOp.remove name => st.1.remove_server name st.2

def applyOps (ops : List RegOp) (st : ToolRegistry × World) : ToolRegistry × World :=
  ops.foldl applyOp st

/-! ## Router and global state (`src/mcp/router.rs`, `src/mcp/state.rs`) -/

/-- Source: `ToolRouter`: a registry plus the routing-enabled flag. -/
structure ToolRouter where
  registry : ToolRegistry
  enabled : Bool

/-- Source: `ToolRouter::disabled`. -/
def ToolRouter.disabledRouter : ToolRouter := ⟨ToolRegistry.new, false⟩

/-- Source: `ToolRouter::shutdown` (router.rs lines 164-166): shut the registry
down; the router object itself (and its `enabled` flag) is unchanged. -/
def ToolRouter.shutdown (r : ToolRouter) (w : World) : ToolRouter × World :=
  let rw := r.registry.shutdown w
  ({ r with registry := rw.1 }, rw.2)

/-- Source: `ToolRouterBuilder::build`: fold `add_server` over the configured
servers, ignoring per-server errors. -/
def buildFold (cfgs : List (McpServerConfig × AddEnv)) (reg : ToolRegistry)
    (w : World) : ToolRegistry × World :=
  cfgs.foldl (fun st p =>
    let r := st.1.add_server p.1 p.2 st.2
    (r.2.1, r.2.2)) (reg, w)

/-- The builder's fold with every intermediate state recorded (initial
state included; the last element is the final state). -/
def buildRegStates : List (McpServerConfig × AddEnv) → ToolRegistry → World →
    List (ToolRegistry × World)
  | [], reg, w => [(reg, w)]
  | (config, env) :: rest, reg, w =>
    let r := reg.add_server config env w
    (reg, w) :: buildRegStates rest r.2.1 r.2.2

/-- One observable moment during `reload_mcp_router`: the router the global
swap cell currently publishes (`none` when the cell was never written), the
registry of the router under construction when the build loop is running,
and the world. -/
structure ReloadSnapshot where
  published : Option ToolRouter
  building : Option ToolRegistry
  world : World

/-- Source: `reload_mcp_router` (`src/mcp/state.rs` lines 51-74) as the sequence of
observable states plus the router it builds:
the initial state; the state after the published router's shutdown has run
to completion (the cell still holds the same router object, its registry
drained in place); one state per step of the build loop; and the state
after the new router is stored.  When the cell was never written, both the
shutdown and the store are skipped. -/
def reloadTrace (cell : Option ToolRouter) (mcp_enabled : Bool)
    (cfgs : List (McpServerConfig × AddEnv)) (w : World) :
    List ReloadSnapshot × ToolRouter :=
  let s0 : ReloadSnapshot := ⟨cell, none, w⟩
  let pw :=
    match cell with
    | some r =>
      let rw := r.shutdown w
      ((some rw.1 : Option ToolRouter), rw.2)
    | none => (none, w)
  let doBuild : Bool := mcp_enabled && !cfgs.isEmpty
  let states :=
    if doBuild then buildRegStates cfgs ToolRegistry.new pw.2
    else [(ToolRegistry.new, pw.2)]
  let fin := states.getLastD (ToolRegistry.new, pw.2)
  let newRouter : ToolRouter := ⟨fin.1, doBuild⟩
  let sLast : ReloadSnapshot :=
    match cell with
    | some _ => ⟨some newRouter, none, fin.2⟩
    | none => ⟨none, none, fin.2⟩
  ((s0 :: (⟨pw.1, none, pw.2⟩ : ReloadSnapshot) ::
      states.map (fun st => (⟨pw.1, some st.1, st.2⟩ : ReloadSnapshot))) ++ [sLast],
    newRouter)

/-! ## Spec-side definitions (for refinement comparison) -/

/-- Spec-side conversion of one content entry, following the spec's words
(section 4.3): "text content becomes a JSON string; image content becomes
an object `{type:"image", data, mime_type}`; resource content becomes an
object `{type:"resource", uri, mime_type, text}`". -/
def specContentToValue : ToolContent → Json
  | ToolContent.Text text => Json.str text
  | ToolContent.Image data mime_type =>
      Json.obj [("type", Json.str "image"), ("data", Json.str data),
        ("mime_type", Json.str mime_type)]
  | ToolContent.Resource resource =>
      Json.obj [("type", Json.str "resource"), ("uri", Json.str resource.uri),
        ("mime_type", jsonOfOptString resource.mime_type),
        ("text", jsonOfOptString resource.text)]

/-- Spec-side result shaping, following the spec's words: the content array
is flattened entry-wise; "if the flattened array has length one the single
element is returned directly; otherwise the whole array is returned"; the
`is_error` flag is not consulted. -/
def specFlattenContent (result : CallToolResult) : Json :=
  match result.content.map specContentToValue with
  | [single] => single
  | flattened => Json.arr flattened

/-! ## Environments and fixtures used by theorems and witnesses -/

/-- A `connect` environment on which every awaited step succeeds. -/
def okConnEnv : ConnectEnv :=
  { spawnOk := true
    pipesOk := true
    wr := WriteOutcome.ok
    aw := AwaitOutcome.response (Except.ok (Json.obj []))
    decodeInit := fun _ => some ⟨"2024-11-05", Json.obj [], ⟨"srv", "1.0"⟩, none⟩
    nwr := WriteOutcome.ok }

/-- An `add_server` environment on which every awaited step succeeds and
the `tools/list` round-trip returns `ts`. -/
def okAddEnv (ts : List McpTool) : AddEnv :=
  { conn := okConnEnv
    lwr := WriteOutcome.ok
    law := AwaitOutcome.response (Except.ok (Json.obj []))
    ldecode := fun _ => some ts }

/-- The client state `connect` leaves behind on the `okConnEnv` path:
handshake request and notification written, id 1 consumed, flag set. -/
def connectedAfter (config : McpServerConfig) (w : World) : McpClient :=
  { config := config
    child := some w.nextPid
    stdin := some [McpRequest.toJson (McpRequest.new (RequestId.Number 1)
        "initialize" (some initParamsJson)),
      notificationJson "notifications/initialized" none]
    pending_requests := []
    next_id := 2
    capabilities := some (Json.obj [])
    initialized := true }

/-- The client state after `connect` and the `tools/list` request of
`add_server`, on the `okAddEnv` path. -/
def listedClient (config : McpServerConfig) (w : World) : McpClient :=
  { connectedAfter config w with
    stdin := some ((connectedAfter config w).stdin.getD [] ++
      [McpRequest.toJson (McpRequest.new (RequestId.Number 2) "tools/list" none)])
    next_id := 3 }

/-- The environment makes some step of the connect handshake fail: the
handshake request's write fails, the await ends in drop/timeout/server
error, the result decode fails, or the notification write fails. -/
def initStepFails (env : ConnectEnv) : Prop :=
  env.wr = WriteOutcome.ioErr ∨
  env.aw = AwaitOutcome.dropped ∨
  env.aw = AwaitOutcome.timedOut ∨
  (∃ err, env.aw = AwaitOutcome.response (Except.error err)) ∨
  (∃ v, env.aw = AwaitOutcome.response (Except.ok v) ∧ env.decodeInit v = none) ∨
  ((∃ v, env.aw = AwaitOutcome.response (Except.ok v) ∧
      (env.decodeInit v).isSome = true) ∧ env.nwr = WriteOutcome.ioErr)

/-- Concrete provider config used by witnesses. -/
def cfgP : McpServerConfig :=
  { name := "p", command := some "cmd", args := [], env := [], url := none,
    enabled := true, timeout_ms := 30000 }

def cfgQ : McpServerConfig := { cfgP with name := "q" }

def cfgDisabled : McpServerConfig :=
  { cfgP with name := "c", command := some "never-run", enabled := false }

def echoTool : McpTool := ⟨"echo", none, Json.obj [("type", Json.str "object")]⟩

def searchToolA : McpTool := ⟨"search", none, Json.obj []⟩

def searchToolB : McpTool := ⟨"search", some "b search", Json.obj []⟩

/-- A connected, ready client (as `connect` leaves it), used as fixture. -/
def connectedClient : McpClient :=
  { config := cfgP, child := some 0, stdin := some [], pending_requests := [],
    next_id := 3, capabilities := some (Json.obj []), initialized := true }

/-- A small populated registry fixture. -/
def witReg : ToolRegistry :=
  ⟨[("p", connectedClient)],
   [("p::echo", RegisteredTool.new "p" echoTool)],
   [("echo", "p::echo")]⟩

/-- A `connect` environment whose handshake request ends in a server
error. -/
def serverErrConnEnv : ConnectEnv :=
  { okConnEnv with aw := AwaitOutcome.response (Except.error ⟨-32600, "bad", none⟩) }

/-- A `connect` environment whose handshake request times out. -/
def timeoutConnEnv : ConnectEnv :=
  { okConnEnv with aw := AwaitOutcome.timedOut }

/-- The registry after two successive successful `add_server` runs (first
`a` exporting `ta`, then `b` exporting `tb`) starting from the empty
registry. -/
def twoAddState (a b : McpServerConfig) (ta tb : List McpTool) (w : World) :
    ToolRegistry :=
  (((ToolRegistry.new.add_server a (okAddEnv ta) w).2.1).add_server b
    (okAddEnv tb) (ToolRegistry.new.add_server a (okAddEnv ta) w).2.2).2.1

/-- The client state inside `connect` right after the child is spawned and
both pipes are taken, before the handshake. -/
def pipedClient (config : McpServerConfig) (w : World) : McpClient :=
  { McpClient.new config with child := some w.nextPid, stdin := some ([] : List Json) }

/-- The world right after `connect` spawns the child. -/
def spawnedWorld (w : World) : World :=
  { spawned := w.nextPid :: w.spawned, alive := w.nextPid :: w.alive,
    nextPid := w.nextPid + 1 }

/-- The registry's structural invariant: unique keys in all three maps,
every tool's provider present among the clients, every tool keyed by its
qualified name, every alias targeting an existing tool. -/
structure RegInv (reg : ToolRegistry) : Prop where
  clients_nodup : (keysA reg.clients).Nodup
  tools_nodup : (keysA reg.tools).Nodup
  aliases_nodup : (keysA reg.tool_aliases).Nodup
  tools_clients : ∀ p ∈ reg.tools, containsKeyA reg.clients p.2.server_name = true
  tools_key : ∀ p ∈ reg.tools, p.1 = p.2.server_name ++ "::" ++ p.2.tool.name
  alias_tools : ∀ p ∈ reg.tool_aliases, containsKeyA reg.tools p.2 = true

/-! # Lemmas and theorems -/

/-! ## Association-map lemma kit -/

theorem containsKeyA_eq_true {V : Type} {l : List (String × V)} {k : String} :
    containsKeyA l k = true ↔ ∃ p ∈ l, p.1 = k := by
  simp [containsKeyA, List.any_eq_true]

theorem mem_keysA {V : Type} {l : List (String × V)} {k : String} :
    k ∈ keysA l ↔ ∃ p ∈ l, p.1 = k := by
  simp [keysA, List.mem_map]

theorem containsKeyA_iff_mem_keysA {V : Type} {l : List (String × V)} {k : String} :
    containsKeyA l k = true ↔ k ∈ keysA l := by
  rw [containsKeyA_eq_true, mem_keysA]

theorem lookupA_cons {V : Type} (p : String × V) (t : List (String × V)) (k : String) :
    lookupA (p :: t) k = if p.1 = k then some p.2 else lookupA t k := by
  unfold lookupA
  rw [List.find?_cons]
  by_cases h : p.1 = k
  · simp only [show (p.1 == k) = true from by simp [h], if_pos h]
    rfl
  · simp only [show (p.1 == k) = false from by simp [h], if_neg h]

theorem lookupA_isSome_iff {V : Type} {l : List (String × V)} {k : String} :
    (lookupA l k).isSome = true ↔ containsKeyA l k = true := by
  induction l with
  | nil => simp [lookupA, containsKeyA]
  | cons p t ih =>
    rw [lookupA_cons]
    by_cases h : p.1 = k
    · simp [containsKeyA, h]
    · simp only [if_neg h, ih, containsKeyA, List.any_cons]
      simp [h]

theorem lookupA_eq_some_imp {V : Type} {l : List (String × V)} {k : String} {v : V}
    (h : lookupA l k = some v) : (k, v) ∈ l := by
  induction l with
  | nil => simp [lookupA] at h
  | cons p t ih =>
    rw [lookupA_cons] at h
    by_cases hk : p.1 = k
    · rw [if_pos hk] at h
      have hv : p.2 = v := by injection h
      have hp : (k, v) = p := by
        obtain ⟨p1, p2⟩ := p
        simp_all
      rw [hp]
      exact List.mem_cons_self _ _
    · rw [if_neg hk] at h
      exact List.mem_cons_of_mem _ (ih h)

theorem insertA_cons_ne {V : Type} {p : String × V} {t : List (String × V)}
    {k : String} (v : V) (h : ¬ p.1 = k) :
    insertA (p :: t) k v = p :: insertA t k v := by
  unfold insertA containsKeyA
  rw [List.any_cons, show (p.1 == k) = false from by simp [h]]
  simp only [Bool.false_or]
  by_cases hc : t.any (fun q => q.1 == k) = true
  · rw [if_pos hc, if_pos hc, List.map_cons,
      show (if (p.1 == k) = true then (k, v) else p) = p from by simp [h]]
  · rw [if_neg hc, if_neg hc, List.cons_append]

theorem insertA_cons_hit {V : Type} {p : String × V} {t : List (String × V)}
    {k : String} (v : V) (h : p.1 = k) :
    insertA (p :: t) k v =
      (k, v) :: t.map (fun q => if q.1 == k then (k, v) else q) := by
  unfold insertA containsKeyA
  simp [List.any_cons, h]

theorem lookupA_mapReplace {V : Type} {t : List (String × V)} {k k' : String}
    (v : V) (hne : ¬ k' = k) :
    lookupA (t.map (fun q => if q.1 == k then (k, v) else q)) k' = lookupA t k' := by
  induction t with
  | nil => rfl
  | cons q t ih =>
    simp only [List.map_cons]
    by_cases hq : q.1 = k
    · rw [show (if (q.1 == k) = true then (k, v) else q) = (k, v) from by simp [hq]]
      rw [lookupA_cons, lookupA_cons]
      rw [if_neg (show ¬ (k, v).1 = k' from fun hh => hne hh.symm)]
      rw [if_neg (show ¬ q.1 = k' from by rw [hq]; exact fun hh => hne hh.symm)]
      exact ih
    · rw [show (if (q.1 == k) = true then (k, v) else q) = q from by simp [hq]]
      rw [lookupA_cons, lookupA_cons]
      by_cases hq' : q.1 = k'
      · rw [if_pos hq', if_pos hq']
      · rw [if_neg hq', if_neg hq']
        exact ih

theorem lookupA_insertA_self {V : Type} (l : List (String × V)) (k : String) (v : V) :
    lookupA (insertA l k v) k = some v := by
  induction l with
  | nil => simp [insertA, containsKeyA, lookupA]
  | cons p t ih =>
    by_cases h : p.1 = k
    · rw [insertA_cons_hit v h, lookupA_cons]
      simp
    · rw [insertA_cons_ne v h, lookupA_cons, if_neg h]
      exact ih

theorem lookupA_insertA_ne {V : Type} (l : List (String × V)) {k k' : String}
    (v : V) (hne : ¬ k' = k) :
    lookupA (insertA l k v) k' = lookupA l k' := by
  induction l with
  | nil =>
    simp only [insertA, containsKeyA, List.any_nil, Bool.false_eq_true, if_false,
      List.nil_append]
    rw [lookupA_cons, if_neg (fun hh => hne hh.symm)]
  | cons p t ih =>
    by_cases h : p.1 = k
    · rw [insertA_cons_hit v h, lookupA_cons, if_neg (fun hh => hne hh.symm),
        lookupA_mapReplace v hne, lookupA_cons, if_neg (by rw [h]; exact fun hh => hne hh.symm)]
    · rw [insertA_cons_ne v h, lookupA_cons, lookupA_cons]
      by_cases h' : p.1 = k'
      · simp [h']
      · simp only [if_neg h', ih]

theorem containsKeyA_insertA_self {V : Type} (l : List (String × V)) (k : String) (v : V) :
    containsKeyA (insertA l k v) k = true := by
  rw [← lookupA_isSome_iff, lookupA_insertA_self]
  rfl

theorem containsKeyA_insertA_of {V : Type} {l : List (String × V)} {k' : String}
    (k : String) (v : V) (h : containsKeyA l k' = true) :
    containsKeyA (insertA l k v) k' = true := by
  by_cases hk : k' = k
  · rw [hk]; exact containsKeyA_insertA_self l k v
  · rw [← lookupA_isSome_iff, lookupA_insertA_ne l v hk, lookupA_isSome_iff]
    exact h

theorem mem_insertA {V : Type} {l : List (String × V)} {k : String} {v : V}
    {p : String × V} (h : p ∈ insertA l k v) : p = (k, v) ∨ p ∈ l := by
  unfold insertA at h
  by_cases hc : containsKeyA l k = true
  · rw [if_pos hc] at h
    rcases List.mem_map.1 h with ⟨q, hq, he⟩
    by_cases hqk : q.1 = k
    · left; rw [← he]; simp [hqk]
    · right; rw [← he]; simpa [hqk] using hq
  · rw [if_neg hc] at h
    rcases List.mem_append.1 h with h | h
    · right; exact h
    · left; simpa using h

theorem keysA_insertA_nodup {V : Type} {l : List (String × V)} (k : String) (v : V)
    (h : (keysA l).Nodup) : (keysA (insertA l k v)).Nodup := by
  unfold insertA
  by_cases hc : containsKeyA l k = true
  · rw [if_pos hc]
    have : keysA (l.map (fun p => if p.1 == k then (k, v) else p)) = keysA l := by
      unfold keysA
      rw [List.map_map]
      apply List.map_congr_left
      intro p _
      by_cases hp : p.1 = k
      · simp [hp]
      · simp [hp]
    rw [this]; exact h
  · rw [if_neg hc]
    unfold keysA
    rw [List.map_append]
    simp only [List.map_cons, List.map_nil]
    rw [List.nodup_append]
    refine ⟨h, List.nodup_singleton k, ?_⟩
    intro a ha hb
    simp only [List.mem_singleton] at hb
    subst hb
    exact hc (containsKeyA_iff_mem_keysA.2 ha)

theorem keysA_filter_nodup {V : Type} {l : List (String × V)} (f : String × V → Bool)
    (h : (keysA l).Nodup) : (keysA (l.filter f)).Nodup := by
  unfold keysA at h ⊢
  exact List.Nodup.sublist
    (List.Sublist.map (fun p => p.1) (List.filter_sublist l)) h

/-! ## String lemmas -/

theorem strAppend_left_cancel {a b c : String} (h : a ++ b = a ++ c) : b = c := by
  have h2 := congrArg String.data h
  simp only [String.data_append] at h2
  exact String.ext (List.append_cancel_left h2)

theorem listIsPrefixOf_append (a b : List Char) : a.isPrefixOf (a ++ b) = true := by
  induction a with
  | nil => simp [List.isPrefixOf]
  | cons x xs ih => simp [List.isPrefixOf, ih]

theorem strStartsWith_append (p r : String) : strStartsWith (p ++ r) p = true := by
  unfold strStartsWith
  rw [String.data_append]
  exact listIsPrefixOf_append p.data r.data

/-! ## Registration-loop lemmas -/

theorem registerTools_cons (s : String) (tool : McpTool) (ts : List McpTool)
    (t : List (String × RegisteredTool)) (a : List (String × String)) :
    registerTools s (tool :: ts) t a =
      registerTools s ts (registerStep s (t, a) tool).1 (registerStep s (t, a) tool).2 :=
  rfl

theorem registerStep_fst (s : String) (t : List (String × RegisteredTool))
    (a : List (String × String)) (tool : McpTool) :
    (registerStep s (t, a) tool).1 =
      insertA t (s ++ "::" ++ tool.name) (RegisteredTool.new s tool) := rfl

theorem registerStep_snd (s : String) (t : List (String × RegisteredTool))
    (a : List (String × String)) (tool : McpTool) :
    (registerStep s (t, a) tool).2 =
      if containsKeyA a tool.name then a
      else insertA a tool.name (s ++ "::" ++ tool.name) := rfl

/-- Master invariant of the registration loop, with an abstract provenance
predicate `Q` for pre-existing entries. -/
theorem registerTools_inv (s : String) (Q : String × RegisteredTool → Prop)
    (ts : List McpTool) :
    ∀ (t : List (String × RegisteredTool)) (a : List (String × String)),
    (keysA t).Nodup → (keysA a).Nodup →
    (∀ p ∈ a, containsKeyA t p.2 = true) →
    (∀ p ∈ t, p.1 = p.2.server_name ++ "::" ++ p.2.tool.name) →
    (∀ p ∈ t, Q p ∨ p.2.server_name = s) →
    (keysA (registerTools s ts t a).1).Nodup ∧
    (keysA (registerTools s ts t a).2).Nodup ∧
    (∀ p ∈ (registerTools s ts t a).2,
      containsKeyA (registerTools s ts t a).1 p.2 = true) ∧
    (∀ p ∈ (registerTools s ts t a).1,
      p.1 = p.2.server_name ++ "::" ++ p.2.tool.name) ∧
    (∀ p ∈ (registerTools s ts t a).1, Q p ∨ p.2.server_name = s) := by
  induction ts with
  | nil => intro t a h1 h2 h3 h4 h5; exact ⟨h1, h2, h3, h4, h5⟩
  | cons tool ts ih =>
    intro t a h1 h2 h3 h4 h5
    rw [registerTools_cons]
    apply ih
    · rw [registerStep_fst]
      exact keysA_insertA_nodup _ _ h1
    · rw [registerStep_snd]
      by_cases hc : containsKeyA a tool.name = true
      · rw [if_pos hc]; exact h2
      · rw [if_neg hc]; exact keysA_insertA_nodup _ _ h2
    · rw [registerStep_fst, registerStep_snd]
      by_cases hc : containsKeyA a tool.name = true
      · rw [if_pos hc]
        intro p hp
        exact containsKeyA_insertA_of _ _ (h3 p hp)
      · rw [if_neg hc]
        intro p hp
        rcases mem_insertA hp with rfl | hpa
        · exact containsKeyA_insertA_self _ _ _
        · exact containsKeyA_insertA_of _ _ (h3 p hpa)
    · rw [registerStep_fst]
      intro p hp
      rcases mem_insertA hp with rfl | hpt
      · rfl
      · exact h4 p hpt
    · rw [registerStep_fst]
      intro p hp
      rcases mem_insertA hp with rfl | hpt
      · right; rfl
      · exact h5 p hpt

theorem registerTools_alias_preserved (s : String) (ts : List McpTool) :
    ∀ (t : List (String × RegisteredTool)) (a : List (String × String))
      (x q : String),
    lookupA a x = some q → lookupA (registerTools s ts t a).2 x = some q := by
  induction ts with
  | nil => intro t a x q h; exact h
  | cons tool ts ih =>
    intro t a x q h
    rw [registerTools_cons]
    apply ih
    rw [registerStep_snd]
    by_cases hc : containsKeyA a tool.name = true
    · rw [if_pos hc]; exact h
    · rw [if_neg hc]
      by_cases hx : x = tool.name
      · exfalso
        apply hc
        rw [← hx, ← lookupA_isSome_iff, h]
        rfl
      · rw [lookupA_insertA_ne a _ hx]; exact h

theorem registerTools_alias_sets (s : String) (ts : List McpTool) :
    ∀ (t : List (String × RegisteredTool)) (a : List (String × String))
      (x : String),
    lookupA a x = none → (∃ tool ∈ ts, tool.name = x) →
    lookupA (registerTools s ts t a).2 x = some (s ++ "::" ++ x) := by
  induction ts with
  | nil =>
    intro t a x _ hex
    rcases hex with ⟨tool, hm, _⟩
    cases hm
  | cons tool ts ih =>
    intro t a x hnone hex
    rw [registerTools_cons]
    by_cases hx : tool.name = x
    · have hc : ¬ containsKeyA a tool.name = true := by
        rw [hx]
        intro hcc
        rw [← lookupA_isSome_iff, hnone] at hcc
        cases hcc
      apply registerTools_alias_preserved
      rw [registerStep_snd, if_neg hc]
      have : insertA a tool.name (s ++ "::" ++ tool.name) =
          insertA a x (s ++ "::" ++ x) := by rw [hx]
      rw [this]
      exact lookupA_insertA_self a x (s ++ "::" ++ x)
    · rcases hex with ⟨tool', hm, hname⟩
      rcases List.mem_cons.1 hm with rfl | hm'
      · exact absurd hname hx
      · apply ih
        · rw [registerStep_snd]
          by_cases hc : containsKeyA a tool.name = true
          · rw [if_pos hc]; exact hnone
          · rw [if_neg hc, lookupA_insertA_ne a _ (fun hh => hx hh.symm)]
            exact hnone
        · exact ⟨tool', hm', hname⟩

theorem registerTools_tools_frame (s : String) (ts : List McpTool) :
    ∀ (t : List (String × RegisteredTool)) (a : List (String × String))
      (k : String),
    (∀ tool ∈ ts, ¬ s ++ "::" ++ tool.name = k) →
    lookupA (registerTools s ts t a).1 k = lookupA t k := by
  induction ts with
  | nil => intro t a k _; rfl
  | cons tool ts ih =>
    intro t a k hk
    rw [registerTools_cons,
      ih _ _ k (fun tl hm => hk tl (List.mem_cons_of_mem _ hm)),
      registerStep_fst]
    exact lookupA_insertA_ne t _
      (fun hh => hk tool (List.mem_cons_self _ _) hh.symm)

theorem registerTools_tools_hit (s : String) (ts : List McpTool) :
    ∀ (t : List (String × RegisteredTool)) (a : List (String × String))
      (tool : McpTool),
    (ts.map McpTool.name).Nodup → tool ∈ ts →
    lookupA (registerTools s ts t a).1 (s ++ "::" ++ tool.name) =
      some (RegisteredTool.new s tool) := by
  induction ts with
  | nil => intro t a tool _ hm; cases hm
  | cons tool0 ts ih =>
    intro t a tool hnd hm
    rw [registerTools_cons]
    rcases List.mem_cons.1 hm with rfl | hm'
    · rw [registerTools_tools_frame]
      · rw [registerStep_fst]
        exact lookupA_insertA_self _ _ _
      · intro tl hmem heq
        have hneq : tl.name = tool.name := strAppend_left_cancel heq
        have hpair :=
          List.nodup_cons.1 (show (tool.name :: ts.map McpTool.name).Nodup from hnd)
        exact hpair.1 (hneq ▸ List.mem_map_of_mem McpTool.name hmem)
    · have hnd' : (ts.map McpTool.name).Nodup :=
        (List.nodup_cons.1
          (show (tool0.name :: ts.map McpTool.name).Nodup from hnd)).2
      exact ih _ _ tool hnd' hm'

theorem registerTools_tools_contains (s : String) (ts : List McpTool) :
    ∀ (t : List (String × RegisteredTool)) (a : List (String × String))
      (k : String),
    containsKeyA t k = true → containsKeyA (registerTools s ts t a).1 k = true := by
  induction ts with
  | nil => intro t a k h; exact h
  | cons tool ts ih =>
    intro t a k h
    rw [registerTools_cons]
    apply ih
    rw [registerStep_fst]
    exact containsKeyA_insertA_of _ _ h

/-! ## Registry invariant preservation -/

theorem containsKeyA_eraseA_of {V : Type} {l : List (String × V)} {k k' : String}
    (hne : ¬ k' = k) (h : containsKeyA l k' = true) :
    containsKeyA (eraseA l k) k' = true := by
  rcases containsKeyA_eq_true.1 h with ⟨p, hp, hpk⟩
  apply containsKeyA_eq_true.2
  refine ⟨p, ?_, hpk⟩
  apply List.mem_filter.2
  refine ⟨hp, ?_⟩
  simp [hpk, hne]

theorem regInv_new : RegInv ToolRegistry.new := by
  constructor <;> simp [ToolRegistry.new, keysA]

theorem regInv_store_no_tools (reg : ToolRegistry) (name : String)
    (client : McpClient) (h : RegInv reg) :
    RegInv ⟨insertA reg.clients name client, reg.tools, reg.tool_aliases⟩ :=
  ⟨keysA_insertA_nodup _ _ h.clients_nodup, h.tools_nodup, h.aliases_nodup,
   fun p hp => containsKeyA_insertA_of _ _ (h.tools_clients p hp),
   h.tools_key, h.alias_tools⟩

theorem regInv_store_tools (reg : ToolRegistry) (name : String)
    (client : McpClient) (ts : List McpTool) (h : RegInv reg) :
    RegInv ⟨insertA reg.clients name client,
      (registerTools name ts reg.tools reg.tool_aliases).1,
      (registerTools name ts reg.tools reg.tool_aliases).2⟩ := by
  have master := registerTools_inv name
    (fun p => containsKeyA reg.clients p.2.server_name = true) ts
    reg.tools reg.tool_aliases h.tools_nodup h.aliases_nodup h.alias_tools
    h.tools_key (fun p hp => Or.inl (h.tools_clients p hp))
  refine ⟨keysA_insertA_nodup _ _ h.clients_nodup, master.1, master.2.1,
    ?_, master.2.2.2.1, master.2.2.1⟩
  intro p hp
  rcases master.2.2.2.2 p hp with hq | hs
  · exact containsKeyA_insertA_of _ _ hq
  · rw [hs]; exact containsKeyA_insertA_self _ _ _

theorem regInv_add_server (reg : ToolRegistry) (config : McpServerConfig)
    (env : AddEnv) (w : World) (h : RegInv reg) :
    RegInv (reg.add_server config env w).2.1 := by
  by_cases hen : config.enabled = false
  · have heq : reg.add_server config env w = (Except.ok (), reg, w) := by
      unfold ToolRegistry.add_server
      rw [if_pos hen]
    rw [heq]
    exact h
  · rcases hc : (McpClient.new config).connect w env.conn with ⟨r, client1, w1⟩
    rcases hl : client1.list_tools env.lwr env.law env.ldecode with ⟨lr, client2⟩
    simp only [ToolRegistry.add_server, hc]
    rw [if_neg hen]
    cases r with
    | error e => exact h
    | ok u =>
      simp only [hl]
      cases lr with
      | ok ts => exact regInv_store_tools reg config.name client2 ts h
      | error e => exact regInv_store_no_tools reg config.name client2 h

theorem regInv_remove_server (reg : ToolRegistry) (name : String) (w : World)
    (h : RegInv reg) : RegInv (reg.remove_server name w).1 := by
  have hcl : ∀ (cl : List (String × McpClient)),
      (cl = eraseA reg.clients name ∨ cl = reg.clients) →
      RegInv ⟨cl,
        reg.tools.filter (fun p => p.2.server_name != name),
        reg.tool_aliases.filter (fun p => !(strStartsWith p.2 (name ++ "::")))⟩ := by
    intro cl hcl
    constructor
    · rcases hcl with rfl | rfl
      · exact keysA_filter_nodup _ h.clients_nodup
      · exact h.clients_nodup
    · exact keysA_filter_nodup _ h.tools_nodup
    · exact keysA_filter_nodup _ h.aliases_nodup
    · intro p hp
      have hmem := List.mem_filter.1 hp
      have hne : ¬ p.2.server_name = name := by
        have := hmem.2
        simpa using this
      rcases hcl with rfl | rfl
      · exact containsKeyA_eraseA_of hne (h.tools_clients p hmem.1)
      · exact h.tools_clients p hmem.1
    · intro p hp
      exact h.tools_key p (List.mem_filter.1 hp).1
    · intro p hp
      have hmem := List.mem_filter.1 hp
      have hold := h.alias_tools p hmem.1
      have hnotpre : ¬ strStartsWith p.2 (name ++ "::") = true := by
        have := hmem.2
        simpa using this
      rcases containsKeyA_eq_true.1 hold with ⟨q, hq, hqk⟩
      have hshape := h.tools_key q hq
      have hsn : ¬ q.2.server_name = name := by
        intro hs
        apply hnotpre
        rw [← hqk, hshape, hs]
        exact strStartsWith_append (name ++ "::") q.2.tool.name
      apply containsKeyA_eq_true.2
      refine ⟨q, List.mem_filter.2 ⟨hq, ?_⟩, hqk⟩
      simp [hsn]
  unfold ToolRegistry.remove_server
  rcases hlk : lookupA reg.clients name with _ | c
  · simp only
    exact hcl reg.clients (Or.inr rfl)
  · simp only
    exact hcl (eraseA reg.clients name) (Or.inl rfl)

theorem regInv_applyOp (st : ToolRegistry × World) (op : RegOp)
    (h : RegInv st.1) : RegInv (applyOp st op).1 := by
  cases op with
  | add config env => exact regInv_add_server st.1 config env st.2 h
  | remove name => exact regInv_remove_server st.1 name st.2 h

theorem regInv_applyOps (ops : List RegOp) :
    ∀ st, RegInv st.1 → RegInv (applyOps ops st).1 := by
  induction ops with
  | nil => intro st h; exact h
  | cons op ops ih => intro st h; exact ih _ (regInv_applyOp st op h)

/-! ## Claim theorems -/

/-- C3: for every finite sequence of completed `add_server`/`remove_server`
operations starting from the empty registry, every entry in `tools` has its
`server_name` present as a key of `clients`, every value in `tool_aliases`
is a key of `tools`, each qualified name is a key of `tools` at most once,
and each short name is a key of `tool_aliases` at most once. -/
theorem c3_registry_invariants (ops : List RegOp) (w : World) :
    (∀ p ∈ ((applyOps ops (ToolRegistry.new, w)).1).tools,
      containsKeyA ((applyOps ops (ToolRegistry.new, w)).1).clients
        p.2.server_name = true) ∧
    (∀ p ∈ ((applyOps ops (ToolRegistry.new, w)).1).tool_aliases,
      containsKeyA ((applyOps ops (ToolRegistry.new, w)).1).tools p.2 = true) ∧
    (keysA ((applyOps ops (ToolRegistry.new, w)).1).tools).Nodup ∧
    (keysA ((applyOps ops (ToolRegistry.new, w)).1).tool_aliases).Nodup := by
  have h := regInv_applyOps ops (ToolRegistry.new, w) regInv_new
  exact ⟨h.tools_clients, h.alias_tools, h.tools_nodup, h.aliases_nodup⟩

/-- C8: for a configuration whose `enabled` field is false, `add_server`
returns success and leaves everything unchanged — the registry is
untouched and the world records no new spawned child. -/
theorem c8_add_server_disabled_noop (reg : ToolRegistry)
    (config : McpServerConfig) (env : AddEnv) (w : World)
    (h : config.enabled = false) :
    reg.add_server config env w = (Except.ok (), reg, w) := by
  unfold ToolRegistry.add_server
  rw [if_pos h]

/-- C8 witness. -/
theorem c8_witness :
    witReg.add_server cfgDisabled (okAddEnv []) World.start =
      (Except.ok (), witReg, World.start) :=
  c8_add_server_disabled_noop witReg cfgDisabled (okAddEnv []) World.start rfl

/-- C10: `notify` performs no check of the `initialized` flag: for every
client — in particular one whose flag is false — with the stdin handle
present, `notify` succeeds and writes the notification line; and it fails
with `ConnectionClosed` exactly when the stdin handle is absent. -/
theorem c10_notify_no_init_gate (c : McpClient) (method : String)
    (params : Option Json) (wr : WriteOutcome) :
    (∀ lines, c.stdin = some lines →
      c.notify method params WriteOutcome.ok =
        (Except.ok (),
         { c with stdin := some (lines ++ [notificationJson method params]) })) ∧
    ((c.notify method params wr).1 =
        Except.error McpClientError.ConnectionClosed ↔ c.stdin = none) := by
  constructor
  · intro lines hl
    unfold McpClient.notify
    rw [hl]
  · unfold McpClient.notify
    cases hs : c.stdin with
    | none => simp
    | some lines => cases wr <;> simp

/-- C10 witness: an un-initialized client with an open stdin handle. -/
theorem c10_witness :
    (({ McpClient.new cfgP with stdin := some ([] : List Json) } : McpClient).notify
        "notifications/progress" none WriteOutcome.ok =
      (Except.ok (),
       { ({ McpClient.new cfgP with stdin := some ([] : List Json) } : McpClient) with
         stdin := some ([] ++ [notificationJson "notifications/progress" none]) })) ∧
    ((({ McpClient.new cfgP with stdin := some ([] : List Json) } : McpClient).notify
        "notifications/progress" none WriteOutcome.ok).1 =
        Except.error McpClientError.ConnectionClosed ↔
      ({ McpClient.new cfgP with stdin := some ([] : List Json) } : McpClient).stdin = none) :=
  ⟨(c10_notify_no_init_gate _ "notifications/progress" none WriteOutcome.ok).1 [] rfl,
   (c10_notify_no_init_gate _ "notifications/progress" none WriteOutcome.ok).2⟩

/-- C6: a `request` on a ready client whose awaited response times out
returns `Timeout`, evicts its own id from the pending table (no entry for
that id remains), leaves the connection state — child, flag, stdin
presence — unchanged, and a subsequent request on the same client can
still succeed. -/
theorem c6_request_timeout_evicts_slot (c : McpClient) (method : String)
    (params : Option Json) (lines : List Json)
    (hinit : c.initialized = true) (hstdin : c.stdin = some lines) :
    ((c.request method params WriteOutcome.ok AwaitOutcome.timedOut).1 =
      Except.error McpClientError.Timeout) ∧
    (RequestId.Number c.next_id ∉
      (c.request method params WriteOutcome.ok AwaitOutcome.timedOut).2.pending_requests) ∧
    ((c.request method params WriteOutcome.ok AwaitOutcome.timedOut).2.initialized
      = c.initialized) ∧
    ((c.request method params WriteOutcome.ok AwaitOutcome.timedOut).2.child
      = c.child) ∧
    ((c.request method params WriteOutcome.ok AwaitOutcome.timedOut).2.stdin
      = some (lines ++
        [(McpRequest.new (RequestId.Number c.next_id) method params).toJson])) ∧
    (∀ (method2 : String) (params2 : Option Json) (v : Json),
      ((c.request method params WriteOutcome.ok AwaitOutcome.timedOut).2.request
          method2 params2 WriteOutcome.ok (AwaitOutcome.response (Except.ok v))).1 =
        Except.ok v) := by
  have hgate : ¬ (c.initialized = false ∧ method ≠ "initialize") := by
    rw [hinit]
    rintro ⟨h1, -⟩
    cases h1
  have hreq : c.request method params WriteOutcome.ok AwaitOutcome.timedOut =
      (Except.error McpClientError.Timeout,
        { c with next_id := c.next_id + 1
                 pending_requests :=
                   removePending (insertPending c.pending_requests
                     (RequestId.Number c.next_id)) (RequestId.Number c.next_id)
                 stdin := some (lines ++
                   [(McpRequest.new (RequestId.Number c.next_id) method params).toJson]) }) := by
    unfold McpClient.request
    rw [if_neg hgate]
    simp only [hstdin]
  rw [hreq]
  refine ⟨rfl, ?_, rfl, rfl, rfl, ?_⟩
  · simp [removePending, List.mem_filter]
  · intro method2 params2 v
    unfold McpClient.request
    rw [if_neg (by simp [hinit])]

/-- C1 counterexample: on a connected, ready client, after `disconnect`
completes, a `request` for the method `"tools/list"` does not fail with
`ConnectionClosed` — the `initialized` gate fires first. -/
theorem c1_counterexample :
    ((connectedClient.disconnect World.start).1.request "tools/list" none
        WriteOutcome.ok AwaitOutcome.timedOut).1 ≠
      Except.error McpClientError.ConnectionClosed := by
  have heval : ((connectedClient.disconnect World.start).1.request "tools/list" none
      WriteOutcome.ok AwaitOutcome.timedOut).1 =
      Except.error McpClientError.NotInitialized := rfl
  rw [heval]
  intro h
  injection h with h1
  exact McpClientError.noConfusion h1

/-- C1 amended: after `disconnect` completes, a `request` for any method
other than `"initialize"` fails with `NotInitialized` (the `initialized`
gate fires before the stdin handle is consulted), leaves the client state
untouched — in particular the child handle and stdin stay `none`, so no
connection is re-established — and `request` performs no spawn (it does
not touch the `World`). -/
theorem c1_request_after_disconnect (c : McpClient) (w : World) (method : String)
    (params : Option Json) (wr : WriteOutcome) (aw : AwaitOutcome)
    (hm : method ≠ "initialize") :
    ((c.disconnect w).1.request method params wr aw =
      (Except.error McpClientError.NotInitialized, (c.disconnect w).1)) ∧
    ((c.disconnect w).1.child = none) ∧
    ((c.disconnect w).1.stdin = none) := by
  refine ⟨?_, rfl, rfl⟩
  unfold McpClient.request
  rw [if_pos ⟨rfl, hm⟩]

/-- C1 witness. -/
theorem c1_witness :
    ((connectedClient.disconnect World.start).1.request "tools/list" none
        WriteOutcome.ok AwaitOutcome.timedOut =
      (Except.error McpClientError.NotInitialized,
        (connectedClient.disconnect World.start).1)) ∧
    ((connectedClient.disconnect World.start).1.child = none) ∧
    ((connectedClient.disconnect World.start).1.stdin = none) :=
  c1_request_after_disconnect connectedClient World.start "tools/list" none
    WriteOutcome.ok AwaitOutcome.timedOut (by decide)

/-- C6 witness. -/
theorem c6_witness :
    ((connectedClient.request "tools/call" none WriteOutcome.ok AwaitOutcome.timedOut).1 =
      Except.error McpClientError.Timeout) ∧
    (RequestId.Number connectedClient.next_id ∉
      (connectedClient.request "tools/call" none WriteOutcome.ok
        AwaitOutcome.timedOut).2.pending_requests) ∧
    ((connectedClient.request "tools/call" none WriteOutcome.ok
        AwaitOutcome.timedOut).2.initialized = connectedClient.initialized) ∧
    ((connectedClient.request "tools/call" none WriteOutcome.ok
        AwaitOutcome.timedOut).2.child = connectedClient.child) ∧
    ((connectedClient.request "tools/call" none WriteOutcome.ok
        AwaitOutcome.timedOut).2.stdin = some ([] ++
      [(McpRequest.new (RequestId.Number connectedClient.next_id) "tools/call"
          none).toJson])) ∧
    (∀ (method2 : String) (params2 : Option Json) (v : Json),
      ((connectedClient.request "tools/call" none WriteOutcome.ok
          AwaitOutcome.timedOut).2.request method2 params2 WriteOutcome.ok
          (AwaitOutcome.response (Except.ok v))).1 = Except.ok v) :=
  c6_request_timeout_evicts_slot connectedClient "tools/call" none [] rfl rfl

/-- The code-side and spec-side per-entry conversions agree. -/
theorem toValue_eq_specContentToValue (c : ToolContent) :
    ToolContent.toValue c = specContentToValue c := by
  cases c <;> rfl

/-- C5: a successful provider call through `ToolRegistry::call_tool`
returns exactly the spec-described flattening of the provider's
`CallToolResult.content` (per-tag conversion; a singleton array returned
as its single element, otherwise the whole array), and the `is_error`
flag is never examined: any two results with the same content produce the
same outcome. -/
theorem c5_call_tool_flattens (reg : ToolRegistry) (name : String)
    (arguments : Option Json) (result : CallToolResult)
    (tool_info : RegisteredTool)
    (hl : reg.lookup_tool name = some tool_info)
    (hc : containsKeyA reg.clients tool_info.server_name = true) :
    (reg.call_tool name arguments (Except.ok result) =
      Except.ok (specFlattenContent result)) ∧
    (∀ e1 e2 : Option Bool,
      reg.call_tool name arguments (Except.ok { result with is_error := e1 }) =
        reg.call_tool name arguments (Except.ok { result with is_error := e2 })) := by
  rcases hcs : lookupA reg.clients tool_info.server_name with _ | client
  · exfalso
    rw [← lookupA_isSome_iff, hcs] at hc
    simp at hc
  · have hmap : result.content.map ToolContent.toValue =
        result.content.map specContentToValue :=
      List.map_congr_left (fun c _ => toValue_eq_specContentToValue c)
    constructor
    · unfold ToolRegistry.call_tool
      rw [hl]
      simp only [hcs]
      unfold specFlattenContent
      rw [hmap]
      generalize result.content.map specContentToValue = xs
      rcases xs with _ | ⟨v, _ | ⟨v2, rest⟩⟩ <;> rfl
    · intro e1 e2
      unfold ToolRegistry.call_tool
      rw [hl]

/-- C5 witness: a populated registry, a two-entry content array, and the
`is_error` independence at `none` vs `some true`. -/
theorem c5_witness :
    (witReg.call_tool "echo" none
        (Except.ok ⟨[ToolContent.Text "hi",
          ToolContent.Image "ZGF0YQ==" "image/png"], none⟩) =
      Except.ok (specFlattenContent ⟨[ToolContent.Text "hi",
        ToolContent.Image "ZGF0YQ==" "image/png"], none⟩)) ∧
    (∀ e1 e2 : Option Bool,
      witReg.call_tool "echo" none
          (Except.ok { (⟨[ToolContent.Text "hi",
            ToolContent.Image "ZGF0YQ==" "image/png"], none⟩ : CallToolResult) with
            is_error := e1 }) =
        witReg.call_tool "echo" none
          (Except.ok { (⟨[ToolContent.Text "hi",
            ToolContent.Image "ZGF0YQ==" "image/png"], none⟩ : CallToolResult) with
            is_error := e2 })) :=
  c5_call_tool_flattens witReg "echo" none
    ⟨[ToolContent.Text "hi", ToolContent.Image "ZGF0YQ==" "image/png"], none⟩
    (RegisteredTool.new "p" echoTool) rfl rfl

/-! ## Serde round-trip lemmas -/

theorem mcpRequest_roundtrip (r : McpRequest) (hp : r.params ≠ some Json.null) :
    McpRequest.fromJson (McpRequest.toJson r) = some r := by
  obtain ⟨jsonrpc, id, method, params⟩ := r
  rcases params with _ | v
  · cases id <;> rfl
  · cases id <;> cases v <;> first | exact absurd rfl hp | rfl

theorem mcpResponse_roundtrip (r : McpResponse)
    (hr : r.result ≠ some Json.null)
    (hd : ∀ e, r.error = some e → e.data ≠ some Json.null) :
    McpResponse.fromJson (McpResponse.toJson r) = some r := by
  obtain ⟨jsonrpc, id, result, error⟩ := r
  rcases error with _ | ⟨code, message, data⟩
  · rcases result with _ | v
    · cases id <;> rfl
    · cases id <;> cases v <;> first | exact absurd rfl hr | rfl
  · have hd2 : data ≠ some Json.null := hd ⟨code, message, data⟩ rfl
    rcases data with _ | d
    · rcases result with _ | v
      · cases id <;> rfl
      · cases id <;> cases v <;> first | exact absurd rfl hr | rfl
    · rcases result with _ | v
      · cases id <;> cases d <;> first | exact absurd rfl hd2 | rfl
      · cases id <;> cases d <;> first
          | exact absurd rfl hd2
          | (cases v <;> first | exact absurd rfl hr | rfl)

/-- C9 counterexample: the request with `params = Some(Value::Null)` does
not round-trip — serialization writes an explicit `"params": null`, and
deserialization of the `Option<Value>` field reads `null` back as `None`. -/
theorem c9_counterexample :
    McpRequest.fromJson (McpRequest.toJson
        ⟨"2.0", RequestId.Number 1, "m", some Json.null⟩) ≠
      some ⟨"2.0", RequestId.Number 1, "m", some Json.null⟩ := by
  have heval : McpRequest.fromJson (McpRequest.toJson
      ⟨"2.0", RequestId.Number 1, "m", some Json.null⟩) =
      some ⟨"2.0", RequestId.Number 1, "m", none⟩ := rfl
  rw [heval]
  intro h
  injection h with h1
  have h2 : (none : Option Json) = some Json.null := congrArg McpRequest.params h1
  exact Option.noConfusion h2

/-- C9 amended: serialize-then-parse of an `McpRequest` or `McpResponse`
yields an equal value — the `RequestId` tag included — provided no optional
`Value`-typed field (`params`, `result`, the error's `data`) holds an
explicit JSON `null`; a `Some(Null)` in such a field collapses to `None`
on re-parse. -/
theorem c9_roundtrip_amended (req : McpRequest) (resp : McpResponse)
    (hp : req.params ≠ some Json.null)
    (hr : resp.result ≠ some Json.null)
    (hd : ∀ e, resp.error = some e → e.data ≠ some Json.null) :
    McpRequest.fromJson (McpRequest.toJson req) = some req ∧
    McpResponse.fromJson (McpResponse.toJson resp) = some resp :=
  ⟨mcpRequest_roundtrip req hp, mcpResponse_roundtrip resp hr hd⟩

/-- C9 witness: an integer-id request and a string-id error response. -/
theorem c9_witness :
    McpRequest.fromJson (McpRequest.toJson
        ⟨"2.0", RequestId.Number 7, "tools/list", none⟩) =
      some ⟨"2.0", RequestId.Number 7, "tools/list", none⟩ ∧
    McpResponse.fromJson (McpResponse.toJson
        ⟨"2.0", RequestId.String "7", some (Json.num 5),
          some ⟨-32601, "nope", none⟩⟩) =
      some ⟨"2.0", RequestId.String "7", some (Json.num 5),
        some ⟨-32601, "nope", none⟩⟩ :=
  c9_roundtrip_amended
    ⟨"2.0", RequestId.Number 7, "tools/list", none⟩
    ⟨"2.0", RequestId.String "7", some (Json.num 5), some ⟨-32601, "nope", none⟩⟩
    (fun h => Option.noConfusion h)
    (fun h => Json.noConfusion (Option.some.inj h))
    (fun e he h => by
      have he2 : e = ⟨-32601, "nope", none⟩ := (Option.some.inj he).symm
      rw [he2] at h
      exact Option.noConfusion h)

/-! ## Connect / handshake lemmas (C7) -/

/-- Any run of the handshake either fails with the flag still false and the
child untouched, or every awaited step succeeded. -/
theorem initHandshake_cases (c : McpClient) (wr : WriteOutcome) (aw : AwaitOutcome)
    (decode : Json → Option InitializeResult) (nwr : WriteOutcome)
    (hinit : c.initialized = false) (lines : List Json)
    (hlines : c.stdin = some lines) :
    ((∃ e, (c.initHandshake wr aw decode nwr).1 = Except.error e) ∧
      (c.initHandshake wr aw decode nwr).2.initialized = false ∧
      (c.initHandshake wr aw decode nwr).2.child = c.child) ∨
    (wr = WriteOutcome.ok ∧ ∃ v res, aw = AwaitOutcome.response (Except.ok v) ∧
      decode v = some res ∧ nwr = WriteOutcome.ok) := by
  have hgate : ¬ (c.initialized = false ∧ ("initialize" : String) ≠ "initialize") := by
    rintro ⟨-, hne⟩
    exact hne rfl
  cases wr with
  | ioErr =>
    left
    refine ⟨⟨McpClientError.SpawnError, ?_⟩, ?_, ?_⟩ <;>
      · unfold McpClient.initHandshake McpClient.request
        rw [if_neg hgate]
        simp [hlines, hinit]
  | ok =>
    cases aw with
    | dropped =>
      left
      refine ⟨⟨McpClientError.Cancelled, ?_⟩, ?_, ?_⟩ <;>
        · unfold McpClient.initHandshake McpClient.request
          rw [if_neg hgate]
          simp [hlines, hinit]
    | timedOut =>
      left
      refine ⟨⟨McpClientError.Timeout, ?_⟩, ?_, ?_⟩ <;>
        · unfold McpClient.initHandshake McpClient.request
          rw [if_neg hgate]
          simp [hlines, hinit]
    | response res =>
      cases res with
      | error err =>
        left
        refine ⟨⟨McpClientError.ServerError err, ?_⟩, ?_, ?_⟩ <;>
          · unfold McpClient.initHandshake McpClient.request
            rw [if_neg hgate]
            simp [hlines, hinit]
      | ok v =>
        cases hdec : decode v with
        | none =>
          left
          refine ⟨⟨McpClientError.JsonError, ?_⟩, ?_, ?_⟩ <;>
            · unfold McpClient.initHandshake McpClient.request
              rw [if_neg hgate]
              simp [hlines, hinit, hdec]
        | some res =>
          cases nwr with
          | ioErr =>
            left
            refine ⟨⟨McpClientError.SpawnError, ?_⟩, ?_, ?_⟩ <;>
              · unfold McpClient.initHandshake McpClient.request McpClient.notify
                rw [if_neg hgate]
                simp [hlines, hinit, hdec]
          | ok =>
            right
            exact ⟨rfl, v, res, rfl, hdec, rfl⟩

/-- A fully-successful handshake run contradicts `initStepFails`. -/
theorem initStepFails_not_ok (env : ConnectEnv) (hfail : initStepFails env)
    (hok : env.wr = WriteOutcome.ok ∧ ∃ v res,
      env.aw = AwaitOutcome.response (Except.ok v) ∧
      env.decodeInit v = some res ∧ env.nwr = WriteOutcome.ok) : False := by
  obtain ⟨hwr, v, res, haw, hdec, hnwr⟩ := hok
  rcases hfail with h | h | h | ⟨err, h⟩ | ⟨v', h, hdec'⟩ | ⟨⟨v', h, _⟩, hnwr'⟩
  · rw [hwr] at h; cases h
  · rw [haw] at h; cases h
  · rw [haw] at h; cases h
  · rw [haw] at h
    injection h with h1
    cases h1
  · rw [haw] at h
    injection h with h1
    injection h1 with h2
    rw [← h2, hdec] at hdec'
    cases hdec'
  · rw [hnwr] at hnwr'; cases hnwr'

/-- Source: `connect` on a fresh client with a command, a successful spawn and
successful pipe acquisition reduces to the handshake outcome. -/
theorem connect_unfold (config : McpServerConfig) (cmd : String) (w : World)
    (env : ConnectEnv) (hcmd : config.command = some cmd)
    (hsp : env.spawnOk = true) (hpp : env.pipesOk = true) :
    (McpClient.new config).connect w env =
      (match (pipedClient config w).initHandshake env.wr env.aw env.decodeInit env.nwr with
       | (Except.error e, c2) => (Except.error e, c2, spawnedWorld w)
       | (Except.ok _, c2) => (Except.ok (), c2, spawnedWorld w)) := by
  unfold McpClient.connect
  simp only [McpClient.new, hcmd, hsp, hpp]
  rfl

/-- C7 counterexample: on a fresh client with a command, spawn and pipes
succeed but the handshake request is answered with a JSON-RPC error.
`connect` returns `ServerError` and the flag stays false — but the spawned
child (pid 0) is NOT killed: it is still held by the client and is still in
the alive set. -/
theorem c7_counterexample :
    (((McpClient.new cfgP).connect World.start serverErrConnEnv).1 =
      Except.error (McpClientError.ServerError ⟨-32600, "bad", none⟩)) ∧
    (((McpClient.new cfgP).connect World.start serverErrConnEnv).2.1.initialized
      = false) ∧
    (((McpClient.new cfgP).connect World.start serverErrConnEnv).2.1.child
      = some 0) ∧
    (0 ∈ ((McpClient.new cfgP).connect World.start serverErrConnEnv).2.2.alive) := by
  refine ⟨rfl, rfl, rfl, ?_⟩
  show (0 : Nat) ∈ [0]
  simp

/-- C7 amended: if any step of the handshake fails during `connect` (on a
fresh client with a configured command whose spawn and pipes succeed),
`connect` returns an error and the `initialized` flag remains false — but
`connect` itself does not kill the spawned child: the client still holds it
and it is still alive.  The kill happens when the failed client is dropped,
which `add_server` does on its error path: there the same error propagates,
the registry is returned unchanged, and the child is no longer alive. -/
theorem c7_connect_handshake_failure (config : McpServerConfig) (cmd : String)
    (env : ConnectEnv) (w : World)
    (hcmd : config.command = some cmd)
    (hsp : env.spawnOk = true) (hpp : env.pipesOk = true)
    (hfail : initStepFails env) :
    ∃ e : McpClientError,
      (((McpClient.new config).connect w env).1 = Except.error e) ∧
      (((McpClient.new config).connect w env).2.1.initialized = false) ∧
      (((McpClient.new config).connect w env).2.1.child = some w.nextPid) ∧
      (w.nextPid ∈ ((McpClient.new config).connect w env).2.2.alive) ∧
      (∀ (reg : ToolRegistry) (addEnv : AddEnv),
        addEnv.conn = env → config.enabled = true →
        (reg.add_server config addEnv w).1 = Except.error e ∧
        (reg.add_server config addEnv w).2.1 = reg ∧
        w.nextPid ∉ (reg.add_server config addEnv w).2.2.alive) := by
  have hcu := connect_unfold config cmd w env hcmd hsp hpp
  rcases initHandshake_cases (pipedClient config w) env.wr env.aw env.decodeInit
      env.nwr rfl [] rfl with ⟨⟨e, he⟩, hflag, hchild⟩ | hok
  swap
  · exact absurd hok (initStepFails_not_ok env hfail)
  rcases hres : (pipedClient config w).initHandshake env.wr env.aw env.decodeInit
      env.nwr with ⟨r, c2⟩
  rw [hres] at he hflag hchild
  simp only at he hflag hchild
  subst he
  rw [hres] at hcu
  simp only at hcu
  have hconn1 : ((McpClient.new config).connect w env) =
      (Except.error e, c2, spawnedWorld w) := hcu
  refine ⟨e, by rw [hconn1], by rw [hconn1]; exact hflag,
    by rw [hconn1]; exact hchild, by rw [hconn1]; exact List.mem_cons_self _ _, ?_⟩
  intro reg addEnv hae hen
  have hadd : reg.add_server config addEnv w =
      (Except.error e, reg, c2.dropKill (spawnedWorld w)) := by
    unfold ToolRegistry.add_server
    rw [if_neg (by rw [hen]; intro hh; cases hh), hae]
    simp only [hconn1]
  refine ⟨by rw [hadd], by rw [hadd], ?_⟩
  rw [hadd]
  simp only [McpClient.dropKill, hchild, World.kill, spawnedWorld]
  intro hmem
  rcases List.mem_filter.1 hmem with ⟨-, hne⟩
  simp at hne

/-- C7 amended witness: a timeout during the handshake. -/
theorem c7_witness :
    ∃ e : McpClientError,
      (((McpClient.new cfgP).connect World.start timeoutConnEnv).1 = Except.error e) ∧
      (((McpClient.new cfgP).connect World.start timeoutConnEnv).2.1.initialized
        = false) ∧
      (((McpClient.new cfgP).connect World.start timeoutConnEnv).2.1.child
        = some World.start.nextPid) ∧
      (World.start.nextPid ∈
        ((McpClient.new cfgP).connect World.start timeoutConnEnv).2.2.alive) ∧
      (∀ (reg : ToolRegistry) (addEnv : AddEnv),
        addEnv.conn = timeoutConnEnv → cfgP.enabled = true →
        (reg.add_server cfgP addEnv World.start).1 = Except.error e ∧
        (reg.add_server cfgP addEnv World.start).2.1 = reg ∧
        World.start.nextPid ∉ (reg.add_server cfgP addEnv World.start).2.2.alive) :=
  c7_connect_handshake_failure cfgP "cmd" timeoutConnEnv World.start rfl rfl rfl
    (Or.inr (Or.inr (Or.inl rfl)))

/-! ## Reload trace lemmas (C2) -/

/-- Shape lemma for a reload trace: one initial snapshot, the post-shutdown
snapshot, the build snapshots (all publishing the drained router), and the
store snapshot. -/
theorem c2_aux (r0 : ToolRouter) (w w1 w2 : World)
    (states : List (ToolRegistry × World)) (drained newR : ToolRouter)
    (hdr : drained.registry.clients = []) (tr : List ReloadSnapshot)
    (htr : tr = ((⟨some r0, none, w⟩ : ReloadSnapshot) ::
        (⟨some drained, none, w1⟩ : ReloadSnapshot) ::
        states.map (fun st => (⟨some drained, some st.1, st.2⟩ : ReloadSnapshot))) ++
      [(⟨some newR, none, w2⟩ : ReloadSnapshot)]) :
    (∀ s ∈ tr.tail.dropLast, s.published = some drained) ∧
    (∃ pre lastS, tr = pre ++ [lastS] ∧ lastS.published = some newR ∧
      lastS.building = none) ∧
    (∀ s ∈ tr, s.published = some r0 ∨ s.published = some drained ∨
      s.published = some newR) ∧
    (∀ s ∈ tr, ∀ r b, s.published = some r → s.building = some b → ∀ n,
      ¬ (containsKeyA r.registry.clients n = true ∧
         containsKeyA b.clients n = true)) := by
  subst htr
  refine ⟨?_, ⟨_, _, rfl, rfl, rfl⟩, ?_, ?_⟩
  · intro s hs
    rw [List.cons_append, List.tail_cons, List.dropLast_concat] at hs
    rcases List.mem_cons.1 hs with rfl | hs2
    · rfl
    · rcases List.mem_map.1 hs2 with ⟨st, -, rfl⟩
      rfl
  · intro s hs
    rcases List.mem_append.1 hs with hs1 | hs1
    · rcases List.mem_cons.1 hs1 with rfl | hs2
      · exact Or.inl rfl
      · rcases List.mem_cons.1 hs2 with rfl | hs3
        · exact Or.inr (Or.inl rfl)
        · rcases List.mem_map.1 hs3 with ⟨st, -, rfl⟩
          exact Or.inr (Or.inl rfl)
    · have hlast := List.mem_singleton.1 hs1
      rw [hlast]
      exact Or.inr (Or.inr rfl)
  · intro s hs r b hpub hbuild n
    rintro ⟨hr, hb⟩
    rcases List.mem_append.1 hs with hs1 | hs1
    · rcases List.mem_cons.1 hs1 with rfl | hs2
      · exact Option.noConfusion hbuild
      · rcases List.mem_cons.1 hs2 with rfl | hs3
        · exact Option.noConfusion hbuild
        · rcases List.mem_map.1 hs3 with ⟨st, -, rfl⟩
          have hr2 : r = drained := (Option.some.inj hpub).symm
          rw [hr2, hdr] at hr
          cases hr
    · have hlast := List.mem_singleton.1 hs1
      rw [hlast] at hbuild
      exact Option.noConfusion hbuild

/-- C2: during `reload` with the swap cell holding router `r0`, the
shutdown of the published router runs to completion before the new router
is stored — every snapshot between the shutdown and the store publishes
the old router with its registry fully drained (no clients, tools or
aliases); the last snapshot is the atomic store of the built router;
`get_router` at any snapshot observes the original router, the drained old
router, or the new one — never a partial state; and at no snapshot do the
published router and the registry under construction hold a connected
client for the same provider. -/
theorem c2_reload_shutdown_before_publish (r0 : ToolRouter) (mcp_enabled : Bool)
    (cfgs : List (McpServerConfig × AddEnv)) (w : World) :
    (∀ s ∈ (reloadTrace (some r0) mcp_enabled cfgs w).1.tail.dropLast,
      s.published = some (⟨⟨[], [], []⟩, r0.enabled⟩ : ToolRouter)) ∧
    (∃ pre lastS, (reloadTrace (some r0) mcp_enabled cfgs w).1 = pre ++ [lastS] ∧
      lastS.published = some (reloadTrace (some r0) mcp_enabled cfgs w).2 ∧
      lastS.building = none) ∧
    (∀ s ∈ (reloadTrace (some r0) mcp_enabled cfgs w).1,
      s.published = some r0 ∨
      s.published = some (⟨⟨[], [], []⟩, r0.enabled⟩ : ToolRouter) ∨
      s.published = some (reloadTrace (some r0) mcp_enabled cfgs w).2) ∧
    (∀ s ∈ (reloadTrace (some r0) mcp_enabled cfgs w).1, ∀ r b,
      s.published = some r → s.building = some b → ∀ n,
      ¬ (containsKeyA r.registry.clients n = true ∧
         containsKeyA b.clients n = true)) := by
  refine c2_aux r0 w _ _ _ (⟨⟨[], [], []⟩, r0.enabled⟩ : ToolRouter)
    (reloadTrace (some r0) mcp_enabled cfgs w).2 rfl
    (reloadTrace (some r0) mcp_enabled cfgs w).1 rfl

/-! ## add_server on the all-success path (C4) -/

theorem registerTools_tools_mem (s : String) (ts : List McpTool) :
    ∀ (t : List (String × RegisteredTool)) (a : List (String × String))
      (tool : McpTool), tool ∈ ts →
    containsKeyA (registerTools s ts t a).1 (s ++ "::" ++ tool.name) = true := by
  induction ts with
  | nil => intro t a tool hm; cases hm
  | cons tool0 ts ih =>
    intro t a tool hm
    rw [registerTools_cons]
    rcases List.mem_cons.1 hm with rfl | hm'
    · apply registerTools_tools_contains
      rw [registerStep_fst]
      exact containsKeyA_insertA_self _ _ _
    · exact ih _ _ tool hm'

/-- The handshake on the freshly-piped client succeeds on `okConnEnv`. -/
theorem initHandshake_okConnEnv (config : McpServerConfig) (w : World) :
    (pipedClient config w).initHandshake okConnEnv.wr okConnEnv.aw
        okConnEnv.decodeInit okConnEnv.nwr =
      (Except.ok (), connectedAfter config w) := by
  rfl

theorem connect_okConnEnv (config : McpServerConfig) (cmd : String) (w : World)
    (hcmd : config.command = some cmd) :
    (McpClient.new config).connect w okConnEnv =
      (Except.ok (), connectedAfter config w, spawnedWorld w) := by
  rw [connect_unfold config cmd w okConnEnv hcmd rfl rfl,
    initHandshake_okConnEnv]

theorem list_tools_okEnv (config : McpServerConfig) (w : World)
    (ts : List McpTool) :
    (connectedAfter config w).list_tools (okAddEnv ts).lwr (okAddEnv ts).law
        (okAddEnv ts).ldecode = (Except.ok ts, listedClient config w) := by
  rfl

/-- Source: `add_server` on the all-success environment stores the client and
registers exactly `registerTools` of the returned tool list. -/
theorem add_server_okAddEnv (reg : ToolRegistry) (config : McpServerConfig)
    (cmd : String) (hcmd : config.command = some cmd)
    (hen : config.enabled = true) (ts : List McpTool) (w : World) :
    (reg.add_server config (okAddEnv ts) w).2.1 =
      ⟨insertA reg.clients config.name (listedClient config w),
       (registerTools config.name ts reg.tools reg.tool_aliases).1,
       (registerTools config.name ts reg.tools reg.tool_aliases).2⟩ := by
  unfold ToolRegistry.add_server
  rw [if_neg (by rw [hen]; intro hh; cases hh)]
  have hconn : (McpClient.new config).connect w (okAddEnv ts).conn =
      (Except.ok (), connectedAfter config w, spawnedWorld w) :=
    connect_okConnEnv config cmd w hcmd
  simp only [hconn, list_tools_okEnv]

/-- C4: two providers `a` and `b` that both export a tool with the same
short name `x`, registered via `add_server` in this order, yield exactly
one alias for `x` and it maps to the first provider's qualified name
`a::x`; the second provider's tool is present in `tools` under its
qualified name `b::x` and `lookup_tool` finds it by that qualified name,
while the short name resolves to the first provider's tool, never `b`'s. -/
theorem c4_short_name_first_wins
    (a b : McpServerConfig) (x : String) (ta tb : List McpTool) (xb : McpTool)
    (cmda cmdb : String)
    (hcmda : a.command = some cmda) (hcmdb : b.command = some cmdb)
    (hena : a.enabled = true) (henb : b.enabled = true)
    (hab : ¬ a.name = b.name)
    (hxa : ∃ tool ∈ ta, tool.name = x)
    (hxb : xb ∈ tb) (hxbn : xb.name = x)
    (hnb : (tb.map McpTool.name).Nodup)
    (hqa : ∀ tool ∈ ta, ¬ a.name ++ "::" ++ tool.name = x)
    (hqb : ∀ tool ∈ tb, ¬ b.name ++ "::" ++ tool.name = x)
    (hba : ∀ tool ∈ tb, ¬ b.name ++ "::" ++ tool.name = a.name ++ "::" ++ x)
    (w : World) :
    lookupA (twoAddState a b ta tb w).tool_aliases x =
      some (a.name ++ "::" ++ x) ∧
    (keysA (twoAddState a b ta tb w).tool_aliases).count x = 1 ∧
    (twoAddState a b ta tb w).lookup_tool (b.name ++ "::" ++ x) =
      some (RegisteredTool.new b.name xb) ∧
    (∃ rt, (twoAddState a b ta tb w).lookup_tool x = some rt ∧
      rt.server_name = a.name ∧ ¬ rt.server_name = b.name) := by
  have h1 := add_server_okAddEnv ToolRegistry.new a cmda hcmda hena ta w
  set st1 := ToolRegistry.new.add_server a (okAddEnv ta) w with hst1
  have h2 := add_server_okAddEnv st1.2.1 b cmdb hcmdb henb tb st1.2.2
  have hreg2 : twoAddState a b ta tb w =
      ⟨insertA st1.2.1.clients b.name (listedClient b st1.2.2),
       (registerTools b.name tb st1.2.1.tools st1.2.1.tool_aliases).1,
       (registerTools b.name tb st1.2.1.tools st1.2.1.tool_aliases).2⟩ := h2
  have hT1 : st1.2.1.tools = (registerTools a.name ta [] []).1 := by
    rw [h1]
    rfl
  have hA1 : st1.2.1.tool_aliases = (registerTools a.name ta [] []).2 := by
    rw [h1]
    rfl
  -- (1) the alias for x
  have haliasA : lookupA (registerTools a.name ta [] []).2 x =
      some (a.name ++ "::" ++ x) :=
    registerTools_alias_sets a.name ta [] [] x rfl hxa
  have halias2 : lookupA (twoAddState a b ta tb w).tool_aliases x =
      some (a.name ++ "::" ++ x) := by
    rw [hreg2]
    apply registerTools_alias_preserved
    rw [hA1]
    exact haliasA
  -- (2) exactly one alias entry keyed x
  have hinv2 : RegInv (twoAddState a b ta tb w) :=
    regInv_add_server _ b (okAddEnv tb) _
      (regInv_add_server _ a (okAddEnv ta) _ regInv_new)
  have hmemk : x ∈ keysA (twoAddState a b ta tb w).tool_aliases :=
    containsKeyA_iff_mem_keysA.1
      (by rw [← lookupA_isSome_iff, halias2]; rfl)
  have hcount : (keysA (twoAddState a b ta tb w).tool_aliases).count x = 1 :=
    List.count_eq_one_of_mem hinv2.aliases_nodup hmemk
  -- (3) b's tool under its qualified name
  have hbx : lookupA (registerTools b.name tb st1.2.1.tools
      st1.2.1.tool_aliases).1 (b.name ++ "::" ++ x) =
      some (RegisteredTool.new b.name xb) := by
    have hh := registerTools_tools_hit b.name tb st1.2.1.tools
      st1.2.1.tool_aliases xb hnb hxb
    rw [hxbn] at hh
    exact hh
  have hlk3 : (twoAddState a b ta tb w).lookup_tool (b.name ++ "::" ++ x) =
      some (RegisteredTool.new b.name xb) := by
    unfold ToolRegistry.lookup_tool
    rw [hreg2]
    simp only [hbx]
  -- (4) the short name resolves to a's tool
  have hnone : lookupA (twoAddState a b ta tb w).tools x = none := by
    rw [hreg2]
    show lookupA (registerTools b.name tb st1.2.1.tools
      st1.2.1.tool_aliases).1 x = none
    rw [registerTools_tools_frame b.name tb _ _ x hqb, hT1,
      registerTools_tools_frame a.name ta _ _ x hqa]
    rfl
  obtain ⟨txa, htxa, htxan⟩ := hxa
  have hcont : containsKeyA (registerTools a.name ta [] []).1
      (a.name ++ "::" ++ x) = true := by
    have hh := registerTools_tools_mem a.name ta [] [] txa htxa
    rw [htxan] at hh
    exact hh
  obtain ⟨rt, hrt⟩ :=
    Option.isSome_iff_exists.1 (lookupA_isSome_iff.2 hcont)
  have hserver : rt.server_name = a.name := by
    have hmem2 := lookupA_eq_some_imp hrt
    have hprov := (registerTools_inv a.name (fun _ => False) ta [] []
      (by simp [keysA]) (by simp [keysA])
      (by intro p hp; cases hp) (by intro p hp; cases hp)
      (by intro p hp; cases hp)).2.2.2.2
    rcases hprov _ hmem2 with hF | hs
    · cases hF
    · exact hs
  have hframe : lookupA (twoAddState a b ta tb w).tools (a.name ++ "::" ++ x) =
      lookupA st1.2.1.tools (a.name ++ "::" ++ x) := by
    rw [hreg2]
    show lookupA (registerTools b.name tb st1.2.1.tools
      st1.2.1.tool_aliases).1 _ = _
    exact registerTools_tools_frame b.name tb _ _ _ hba
  have hrt1 : lookupA st1.2.1.tools (a.name ++ "::" ++ x) = some rt := by
    rw [hT1]
    exact hrt
  have hlk4 : (twoAddState a b ta tb w).lookup_tool x = some rt := by
    unfold ToolRegistry.lookup_tool
    rw [hnone, halias2]
    show lookupA (twoAddState a b ta tb w).tools (a.name ++ "::" ++ x) = some rt
    rw [hframe, hrt1]
  refine ⟨halias2, hcount, hlk3, rt, hlk4, hserver, ?_⟩
  rw [hserver]
  exact hab

/-- C4 witness: providers "p" and "q" both exporting a "search" tool. -/
theorem c4_witness :
    lookupA (twoAddState cfgP cfgQ [searchToolA] [searchToolB]
        World.start).tool_aliases "search" =
      some (cfgP.name ++ "::" ++ "search") ∧
    (keysA (twoAddState cfgP cfgQ [searchToolA] [searchToolB]
        World.start).tool_aliases).count "search" = 1 ∧
    (twoAddState cfgP cfgQ [searchToolA] [searchToolB] World.start).lookup_tool
        (cfgQ.name ++ "::" ++ "search") =
      some (RegisteredTool.new cfgQ.name searchToolB) ∧
    (∃ rt, (twoAddState cfgP cfgQ [searchToolA] [searchToolB]
        World.start).lookup_tool "search" = some rt ∧
      rt.server_name = cfgP.name ∧ ¬ rt.server_name = cfgQ.name) :=
  c4_short_name_first_wins cfgP cfgQ "search" [searchToolA] [searchToolB]
    searchToolB "cmd" "cmd" rfl rfl rfl rfl (by decide)
    ⟨searchToolA, List.mem_cons_self _ _, rfl⟩
    (List.mem_cons_self _ _) rfl (by decide)
    (by intro tool hm; rw [List.mem_singleton.1 hm]; decide)
    (by intro tool hm; rw [List.mem_singleton.1 hm]; decide)
    (by intro tool hm; rw [List.mem_singleton.1 hm]; decide)
    World.start

end Clewdr
